import Mathlib

set_option autoImplicit false
set_option maxRecDepth 100000

/-!
Verification development for the HealthMate retrieval-and-context-assembly
core: a shallow embedding of src/rag/retrieval.py, src/rag/context_builder.py,
src/memory/graph_state.py and src/rag/pipeline.py, together with theorems
about the behaviour those modules exhibit.  Floating-point scores and
distances are modelled as rationals; external collaborators (ChromaDB,
tiktoken, the LLM, uuid4/utcnow) are passed in as function parameters.
-/

namespace HealthMate

/-! ## Data model -/

/-- Passage metadata as used by the retriever and the context builder:
only the source and pages keys are ever read by the code under
verification (metadata.get("source", "Unknown") and metadata.get("pages")).
Absent dict keys are modelled as none. -/
structure Metadata where
  source : Option String
  pages : Option Nat
deriving DecidableEq, Repr

/-- A retrieved passage dict with content, metadata and similarity score. -/
structure Passage where
  content : String
  metadata : Metadata
  score : ℚ
deriving DecidableEq, Repr

/-- A raw document coming back from the ChromaDB gateway, before the
distance-to-similarity conversion in RAGRetriever.retrieve. -/
structure RetrieverDoc where
  content : String
  metadata : Metadata
deriving DecidableEq, Repr

/-! ## Model of difflib.SequenceMatcher.ratio

RAGRetriever._text_similarity calls SequenceMatcher(None, text1, text2).ratio()
from the Python standard library.  The model below implements that algorithm
(without the autojunk heuristic, which is inactive for strings shorter than
200 characters, the regime of every concrete string used in this file):
repeatedly find the longest matching block, recurse on both sides, and sum
the matched sizes; the ratio is 2*M divided by the total length. -/

/-- Length of the longest common prefix of two character lists. -/
def cpl : List Char → List Char → Nat
  | x :: xs, y :: ys => if x = y then cpl xs ys + 1 else 0
  | _, _ => 0

/-- Model of find_longest_match: among all matching blocks the longest one,
ties broken by earliest start in the first string, then earliest start in
the second.  Returns (i, j, size). -/
def flm (a b : List Char) : Nat × Nat × Nat :=
  (List.range a.length).foldl
    (fun best i =>
      (List.range b.length).foldl
        (fun best2 j =>
          let k := cpl (a.drop i) (b.drop j)
          if best2.2.2 < k then (i, j, k) else best2)
        best)
    (0, 0, 0)

/-- Total size of all matching blocks (the recursion of
get_matching_blocks), written with explicit fuel; each recursive call
strictly shrinks the summed length, so fuel a.length + b.length + 1 always
suffices. -/
def matchTotalF : Nat → List Char → List Char → Nat
  | 0, _, _ => 0
  | fuel + 1, a, b =>
    let t := flm a b
    if t.2.2 = 0 then 0
    else
      t.2.2 + matchTotalF fuel (a.take t.1) (b.take t.2.1)
        + matchTotalF fuel (a.drop (t.1 + t.2.2)) (b.drop (t.2.1 + t.2.2))

/-- Total matched size between two character lists. -/
def matchTotal (a b : List Char) : Nat :=
  matchTotalF (a.length + b.length + 1) a b

/-- Model of SequenceMatcher(None, text1, text2).ratio(): 2*M divided by
the summed length, and 1.0 when both strings are empty. -/
def seqMatcherRatio (text1 text2 : String) : ℚ :=
  let la := text1.toList.length
  let lb := text2.toList.length
  if la + lb = 0 then 1
  else (2 * (matchTotal text1.toList text2.toList) : ℚ) / (la + lb)

/-- RAGRetriever._text_similarity. -/
def textSimilarity (text1 text2 : String) : ℚ :=
  seqMatcherRatio text1 text2

/-! ## RAGRetriever -/

/-- RAGRetriever._filter_by_relevance: keep passages whose score is at
least the similarity threshold. -/
def filterByRelevance (simThreshold : ℚ) (passages : List Passage) : List Passage :=
  passages.filter (fun p => simThreshold ≤ p.score)

/-- Insert into a list already sorted by score descending, placing the new
element before the first element that does not have a strictly larger
score. -/
def insertScoreDesc (p : Passage) : List Passage → List Passage
  | [] => [p]
  | q :: qs => if p.score < q.score then q :: insertScoreDesc p qs else p :: q :: qs

/-- Stable descending sort by score.  This insertion sort is stable and
sorts by score descending, hence it agrees with Python's
sorted(passages, key=lambda x: x["score"], reverse=True), which is the
(unique) stable descending sort. -/
def sortByScoreDesc : List Passage → List Passage
  | [] => []
  | p :: ps => insertScoreDesc p (sortByScoreDesc ps)

/-- The for-loop of RAGRetriever._deduplicate_passages: walk the sorted
passages, keeping a passage unless its content has similarity at least thr
to some already-kept content (the code computes sim(current, seen)).
kept mirrors unique_passages and seen mirrors seen_content. -/
def dedupWalk (sim : String → String → ℚ) (thr : ℚ) :
    List Passage → List Passage → List String → List Passage
  | [], kept, _ => kept
  | p :: ps, kept, seen =>
    if seen.any (fun s => thr ≤ sim p.content s) then
      dedupWalk sim thr ps kept seen
    else
      dedupWalk sim thr ps (kept ++ [p]) (seen ++ [p.content])

/-- RAGRetriever._deduplicate_passages.  The similarity function is a
parameter so the walk's properties are proved once; the retriever
instantiates it with textSimilarity (the SequenceMatcher model). -/
def deduplicatePassages (sim : String → String → ℚ) (thr : ℚ)
    (passages : List Passage) : List Passage :=
  match passages with
  | [] => []
  | _ :: _ => dedupWalk sim thr (sortByScoreDesc passages) [] []

/-- The expression k = top_k or self.top_k in RAGRetriever.retrieve:
Python's or treats both None and 0 as absent (0 is falsy) and falls back
to the configured default. -/
def effectiveTopK (selfTopK : Nat) : Option Nat → Nat
  | none => selfTopK
  | some 0 => selfTopK
  | some n => n

/-- RAGRetriever.retrieve.  The ChromaDB gateway is external and modelled
as the function db from (query, k) to scored results (distances are
non-negative L2 distances). -/
def retrieve (db : String → Nat → List (RetrieverDoc × ℚ))
    (simThreshold dedupThreshold : ℚ) (selfTopK : Nat)
    (query : String) (topK : Option Nat) (applyDedup : Bool) : List Passage :=
  let k := effectiveTopK selfTopK topK
  match db query (k * 2) with
  | [] => []
  | results@(_ :: _) =>
    let passages := results.map (fun r =>
      { content := r.1.content, metadata := r.1.metadata,
        score := 1 / (1 + r.2) : Passage })
    let filtered := filterByRelevance simThreshold passages
    let filtered2 :=
      if applyDedup then deduplicatePassages textSimilarity dedupThreshold filtered
      else filtered
    filtered2.take k

/-! ## ContextBuilder -/

/-- The dict returned by ContextBuilder.build_context.  The empty-passages
branch of the code returns a dict holding only the context and citations
keys; the three count keys are therefore modelled as Option and are none
exactly when absent from the returned dict. -/
structure ContextResult where
  context : String
  citations : String
  num_passages : Option Nat
  num_sources : Option Nat
  total_tokens : Option Nat
deriving DecidableEq, Repr

/-- Loop state of the for-loop in ContextBuilder.build_context: the
collected context parts, the source-to-citation-number map in insertion
order, the next citation number, the running token count, the number of
included passages, and (for specification purposes) the passages the loop
has visited before terminating or breaking. -/
structure BuildAcc where
  parts : List String
  citMap : List (String × Nat)
  counter : Nat
  tokens : Nat
  included : Nat
  walked : List Passage
deriving DecidableEq, Repr

/-- metadata.get("source", "Unknown"). -/
def sourceOf (p : Passage) : String :=
  p.metadata.source.getD "Unknown"

/-- The for-loop of ContextBuilder.build_context.  A citation number is
resolved or assigned before the token-budget check, and when
current_tokens + passage_tokens exceeds the budget the loop breaks
entirely, keeping the citation it just assigned.  tc models
self._count_tokens (tiktoken is external), sep the separator argument. -/
def buildLoop (tc : String → Nat) (maxTokens : Nat) (includeMetadata : Bool)
    (sep : String) : List Passage → BuildAcc → BuildAcc
  | [], acc => acc
  | p :: ps, acc =>
    let source := sourceOf p
    let citMapNew :=
      match acc.citMap.lookup source with
      | some _ => acc.citMap
      | none => acc.citMap ++ [(source, acc.counter)]
    let counterNew :=
      match acc.citMap.lookup source with
      | some _ => acc.counter
      | none => acc.counter + 1
    let citationNum := (citMapNew.lookup source).getD 0
    let formatted :=
      if includeMetadata then "[Source " ++ toString citationNum ++ "] " ++ p.content
      else p.content
    let passageTokens := tc (formatted ++ sep)
    if maxTokens < acc.tokens + passageTokens then
      { acc with citMap := citMapNew, counter := counterNew,
                 walked := acc.walked ++ [p] }
    else
      buildLoop tc maxTokens includeMetadata sep ps
        { parts := acc.parts ++ [formatted]
          citMap := citMapNew
          counter := counterNew
          tokens := acc.tokens + passageTokens
          included := acc.included + 1
          walked := acc.walked ++ [p] }

/-- The initial loop state: empty parts and citation map, counter 1,
zero tokens, nothing included or walked. -/
def initAcc : BuildAcc :=
  { parts := [], citMap := [], counter := 1, tokens := 0, included := 0, walked := [] }

/-- The source_metadata dict of _build_citations_from_map: for each source
the metadata of its first occurrence in the full passages list
(insert-if-absent), defaulting to the empty dict. -/
def sourceMetadata (passages : List Passage) (source : String) : Metadata :=
  match passages.find? (fun p => sourceOf p == source) with
  | some p => p.metadata
  | none => { source := none, pages := none }

/-- Insert into a list already sorted ascending by citation number,
placing the new element before the first element whose number is not
strictly smaller. -/
def insertByNum (x : String × Nat) : List (String × Nat) → List (String × Nat)
  | [] => [x]
  | y :: ys => if y.2 < x.2 then y :: insertByNum x ys else x :: y :: ys

/-- Stable ascending sort by citation number: agrees with Python's
sorted(citation_map.items(), key=lambda x: x[1]), which is the unique
stable ascending sort of the insertion-ordered items. -/
def sortByNum : List (String × Nat) → List (String × Nat)
  | [] => []
  | x :: xs => insertByNum x (sortByNum xs)

/-- One line of _build_citations_from_map: "N. source" with an optional
" (P pages)" suffix. Python tests the pages value for truthiness, so both
an absent key and a page count of 0 produce no suffix. -/
def citationLine (passages : List Passage) (entry : String × Nat) : String :=
  let md := sourceMetadata passages entry.1
  let base := toString entry.2 ++ ". " ++ entry.1
  match md.pages with
  | some p => if p ≠ 0 then base ++ " (" ++ toString p ++ " pages)" else base
  | none => base

/-- ContextBuilder._build_citations_from_map: the citation lines sorted by
citation number ascending, joined by newlines. -/
def buildCitationsFromMap (citMap : List (String × Nat)) (passages : List Passage) : String :=
  String.intercalate "\n" ((sortByNum citMap).map (citationLine passages))

/-- ContextBuilder.build_context.  On the empty passage list the code
returns a dict holding only the sentinel context and an empty citations
string (no count keys, modelled none); otherwise it runs the loop and
assembles the five-key result. -/
def buildContext (tc : String → Nat) (maxTokens : Nat) (passages : List Passage)
    (includeMetadata : Bool) (sep : String) : ContextResult :=
  match passages with
  | [] =>
    { context := "No relevant information found in the knowledge base."
      citations := ""
      num_passages := none
      num_sources := none
      total_tokens := none }
  | _ :: _ =>
    let acc := buildLoop tc maxTokens includeMetadata sep passages initAcc
    { context := String.intercalate sep acc.parts
      citations := buildCitationsFromMap acc.citMap passages
      num_passages := some acc.included
      num_sources := some acc.citMap.length
      total_tokens := some acc.tokens }

/-! ## LangGraphStateManager (src/memory/graph_state.py) -/

/-- A stored message dict.  message_id and timestamp are Option because
legacy entries fed through update_state may lack either key. -/
structure MessageDict where
  role : String
  content : String
  message_id : Option String
  timestamp : Option String
deriving DecidableEq, Repr

/-- A stored conversation dict. -/
structure ConversationDict where
  conversation_id : String
  title : String
  messages : List MessageDict
  summary : String
deriving DecidableEq, Repr

/-- The GraphState view returned by get_state and accepted by
update_state. -/
structure GraphState where
  messages : List MessageDict
  title : String
  summary : Option String
deriving DecidableEq, Repr

/-- The in-memory _sessions dict, insertion-ordered. -/
abbrev Store := List (String × ConversationDict)

/-- LangGraphStateManager._create_message; uuid4() and utcnow().isoformat()
are external and passed in. -/
def createMessage (role content uuid ts : String) : MessageDict :=
  { role := role, content := content, message_id := some uuid, timestamp := some ts }

/-- LangGraphStateManager.get_state: look up or lazily create the
conversation.  The Bool records whether _save_sessions ran, which happens
exactly when the conversation was created. -/
def getState (s : Store) (cid : String) (title : Option String) :
    Store × GraphState × Bool :=
  match s.lookup cid with
  | some conv =>
    (s, { messages := conv.messages, title := conv.title, summary := some conv.summary },
     false)
  | none =>
    let conv : ConversationDict :=
      { conversation_id := cid, title := title.getD "Untitled", messages := [], summary := "" }
    (s ++ [(cid, conv)],
     { messages := [], title := conv.title, summary := some "" }, true)

/-- LangGraphStateManager.update_state.  mint supplies the external uuid
and timestamp for the n-th message of the incoming view when one must be
minted.  Note that the code tests only whether the message_id key is
missing: a message that has a message_id but no timestamp is stored
unchanged. -/
def updateState (s : Store) (cid : String) (st : GraphState)
    (mint : Nat → String × String) : Store :=
  let s1 :=
    if (s.lookup cid).isSome then s
    else s ++ [(cid,
      { conversation_id := cid, title := st.title, messages := [],
        summary := st.summary.getD "" })]
  let msgs := st.messages.mapIdx (fun n m =>
    match m.message_id with
    | none => createMessage m.role m.content (mint n).1 (mint n).2
    | some _ => m)
  s1.map (fun e =>
    if e.1 = cid then
      (e.1, { e.2 with title := st.title, messages := msgs, summary := st.summary.getD "" })
    else e)

/-- LangGraphStateManager.add_message: raises ValueError (modelled as
Except.error) before any mutation when the conversation is unknown,
otherwise mints the message, appends it and flushes.  The Bool records
whether _save_sessions ran. -/
def addMessage (s : Store) (cid role content uuid ts : String) :
    Store × Bool × Except String MessageDict :=
  if (s.lookup cid).isSome then
    let m := createMessage role content uuid ts
    (s.map (fun e =>
       if e.1 = cid then (e.1, { e.2 with messages := e.2.messages ++ [m] }) else e),
     true, Except.ok m)
  else
    (s, false, Except.error ("Conversation " ++ cid ++ " not found"))

/-! ## Pipeline (src/rag/pipeline.py) -/

/-- Characterwise model of str.strip() (whitespace on both ends). -/
def pyStrip (s : String) : String :=
  String.mk (((s.toList.dropWhile Char.isWhitespace).reverse.dropWhile
    Char.isWhitespace).reverse)

/-- Helper for pySplitWs: split on whitespace runs, dropping empty
pieces; cur accumulates the current word reversed. -/
def pySplitAux : List Char → List Char → List String
  | [], cur => if cur = [] then [] else [String.mk cur.reverse]
  | c :: cs, cur =>
    if c.isWhitespace then
      if cur = [] then pySplitAux cs []
      else String.mk cur.reverse :: pySplitAux cs []
    else pySplitAux cs (c :: cur)

/-- Model of Python str.split() with no separator. -/
def pySplitWs (s : String) : List String :=
  pySplitAux s.toList []

/-- The verdict extraction in rag_desider:
reply.content.strip().split()[0].  On an empty or whitespace-only
completion the [0] index raises IndexError (modelled Except.error);
otherwise the first whitespace-delimited token becomes the verdict. -/
def ragDesiderVerdict (replyContent : String) : Except String String :=
  match (pySplitWs (pyStrip replyContent)).head? with
  | some w => Except.ok w
  | none => Except.error "IndexError: list index out of range"

/-- Characterwise model of str.lower() (ASCII case folding, which is all
the router's yes-comparison exercises). -/
def pyLower (s : String) : String :=
  String.mk (s.toList.map Char.toLower)

/-- The two terminal branches of the LangGraph pipeline. -/
inductive Route
  | invokeRag
  | noRagChatter
deriving DecidableEq, Repr

/-- pipeline.router: read needs_medical_instructions with default "No"
(absent key gives the default) and dispatch to invoke_rag exactly when it
lowercases to "yes". -/
def router (verdict : Option String) : Route :=
  if pyLower (verdict.getD "No") = "yes" then Route.invokeRag else Route.noRagChatter

/-- Python list slicing l[-n:] for the history windows (the whole list
when n = 0, otherwise the last n elements). -/
def historyTail (n : Nat) (l : List MessageDict) : List MessageDict :=
  if n = 0 then l else l.drop (l.length - n)

/-- pipeline.no_rag_chatter: build the chatter prompt plus the recent
history, invoke the llm, and append the reply to the conversation store.
The function takes no retriever and no context builder: the casual branch
never touches them. -/
def noRagChatterNode (llm : List (String × String) → String)
    (chatterPrompt : String) (maxMessages : Nat)
    (s : Store) (cid uuid ts : String) (history : List MessageDict) :
    Store × Bool × Except String MessageDict :=
  let msgs := ("system", chatterPrompt) ::
    (historyTail maxMessages history).map (fun m => (m.role, m.content))
  let reply := llm msgs
  addMessage s cid "assistant" reply uuid ts

/-- pipeline.invoke_rag on its non-exception path: retrieve passages for
the last user message, fall back to the plain instructor prompt when no
passages are found, otherwise build the context and format the RAG prompt
(ragTemplate models RAG_INSTRUCTOR_PROMPT.format applied to context,
citations and query); then append the reply. -/
def invokeRagNode (retrieveFn : String → List Passage) (tc : String → Nat)
    (llm : List (String × String) → String)
    (instructorPrompt : String) (ragTemplate : String → String → String → String)
    (maxTokens maxMessages : Nat)
    (s : Store) (cid uuid ts : String) (history : List MessageDict) :
    Store × Bool × Except String MessageDict :=
  let userQuery := ((history.getLast?).map (fun m => m.content)).getD ""
  let passages := retrieveFn userQuery
  let reply :=
    if passages = [] then
      llm (("system", instructorPrompt) ::
        (historyTail maxMessages history).map (fun m => (m.role, m.content)))
    else
      let cd := buildContext tc maxTokens passages true "\n\n---\n\n"
      let ragPrompt := ragTemplate cd.context cd.citations userQuery
      llm (("system", ragPrompt) ::
        ((historyTail maxMessages history.dropLast).map (fun m => (m.role, m.content))
          ++ [("user", userQuery)]))
  addMessage s cid "assistant" reply uuid ts

/-- The conditional edge after the router node: dispatch to invoke_rag or
no_rag_chatter according to the router's decision. -/
def dispatchAfterRouter (retrieveFn : String → List Passage) (tc : String → Nat)
    (llm : List (String × String) → String)
    (instructorPrompt : String) (ragTemplate : String → String → String → String)
    (chatterPrompt : String) (maxTokens maxMessages : Nat)
    (verdict : Option String)
    (s : Store) (cid uuid ts : String) (history : List MessageDict) :
    Store × Bool × Except String MessageDict :=
  match router verdict with
  | Route.invokeRag =>
    invokeRagNode retrieveFn tc llm instructorPrompt ragTemplate maxTokens maxMessages
      s cid uuid ts history
  | Route.noRagChatter =>
    noRagChatterNode llm chatterPrompt maxMessages s cid uuid ts history

/-! ## First-seen order

Helper specification notion used by the citation-numbering theorems. -/

/-- First-seen-order list of the distinct elements of l (the insertion
order of the keys of a Python dict populated by insert-if-absent). -/
def firstSeen (l : List String) : List String :=
  l.foldl (fun acc s => if s ∈ acc then acc else acc ++ [s]) []

/-! ## Concrete example data

Used by the counterexamples and witnesses below.  The dedup strings are
all under 200 characters, so SequenceMatcher autojunk is inactive; their
ratios are ratio(exY, exX) = 18/20, ratio(exZ, exX) = 16/20 and
ratio(exY, exZ) = 18/20.  With threshold 0.85 the passages with contents
exX, exY, exZ and scores 3 > 2 > 1 dedup to the exX and exZ passages:
the exY passage is dropped against exX, while exZ (a near-duplicate of
exY with lower score) survives because it is not a near-duplicate of
exX. -/

/-- A concrete external vector store document: highly relevant at
distance 0, so similarity score 1. -/
def exDoc : RetrieverDoc :=
  { content := "apply pressure to the wound",
    metadata := { source := some "first-aid.pdf", pages := some 12 } }

/-- A gateway that returns exDoc at distance 0 for every query. -/
def exDb : String → Nat → List (RetrieverDoc × ℚ) :=
  fun _ _ => [(exDoc, 0)]

/-- The passage retrieve builds from exDoc. -/
def exDocPassage : Passage :=
  { content := exDoc.content, metadata := exDoc.metadata, score := 1 }

/-- Ten letters a: the top-scored dedup passage content. -/
def exX : String := "aaaaaaaaaa"

/-- Nine letters a and one b: near-duplicate of both exX and exZ. -/
def exY : String := "aaaaaaaaab"

/-- Eight letters a and two b: near-duplicate of exY but not of exX. -/
def exZ : String := "aaaaaaaabb"

/-- The top-scored passage of the dedup counterexample. -/
def exP1 : Passage :=
  { content := exX, metadata := { source := some "doc1", pages := none }, score := 3 }

/-- The middle passage of the dedup counterexample. -/
def exP2 : Passage :=
  { content := exY, metadata := { source := some "doc2", pages := none }, score := 2 }

/-- The lowest-scored passage of the dedup counterexample. -/
def exP3 : Passage :=
  { content := exZ, metadata := { source := some "doc3", pages := none }, score := 1 }

/-- A short passage from source A that fits a 30-token budget. -/
def exShort : Passage :=
  { content := "press here", metadata := { source := some "A", pages := none }, score := 1 }

/-- A long passage from source B that does not fit once exShort is in. -/
def exLong : Passage :=
  { content := "this is a much longer passage about treating severe burns",
    metadata := { source := some "B", pages := none }, score := 1 }

/-- Passage from source A. -/
def exPA : Passage :=
  { content := "alpha", metadata := { source := some "A", pages := none }, score := 1 }

/-- Passage from source B with a page count. -/
def exPB : Passage :=
  { content := "bravo", metadata := { source := some "B", pages := some 3 }, score := 1 }

/-- A second passage from source A, exercising number reuse. -/
def exPA2 : Passage :=
  { content := "alpha again", metadata := { source := some "A", pages := none }, score := 1 }

/-- The legacy message exhibiting the update_state normalization gap: it
has a message_id but no timestamp key. -/
def exLegacyMsg : MessageDict :=
  { role := "user", content := "hi", message_id := some "m1", timestamp := none }

/-- A conversation used by the router witness. -/
def exConv : ConversationDict :=
  { conversation_id := "c1", title := "T", messages := [], summary := "" }

/-! ## Retriever lemmas -/

lemma mem_insertScoreDesc {p x : Passage} {l : List Passage} :
    x ∈ insertScoreDesc p l ↔ x = p ∨ x ∈ l := by
  induction l with
  | nil => simp [insertScoreDesc]
  | cons q qs ih =>
    simp only [insertScoreDesc]
    split
    · simp only [List.mem_cons, ih]
      tauto
    · simp [List.mem_cons]

lemma mem_sortByScoreDesc {x : Passage} {l : List Passage} :
    x ∈ sortByScoreDesc l ↔ x ∈ l := by
  induction l with
  | nil => simp [sortByScoreDesc]
  | cons p ps ih =>
    simp [sortByScoreDesc, mem_insertScoreDesc, ih]

lemma dedupWalk_eq_append (sim : String → String → ℚ) (thr : ℚ) :
    ∀ (l kept : List Passage) (seen : List String),
      ∃ extra, dedupWalk sim thr l kept seen = kept ++ extra := by
  intro l
  induction l with
  | nil => intro kept seen; exact ⟨[], by simp [dedupWalk]⟩
  | cons p ps ih =>
    intro kept seen
    simp only [dedupWalk]
    split
    · exact ih kept seen
    · obtain ⟨extra, hx⟩ := ih (kept ++ [p]) (seen ++ [p.content])
      exact ⟨p :: extra, by simp [hx]⟩

lemma dedupWalk_mem (sim : String → String → ℚ) (thr : ℚ) :
    ∀ (l kept : List Passage) (seen : List String) (x : Passage),
      x ∈ dedupWalk sim thr l kept seen → x ∈ kept ∨ x ∈ l := by
  intro l
  induction l with
  | nil => intro kept seen x hx; exact Or.inl hx
  | cons p ps ih =>
    intro kept seen x hx
    simp only [dedupWalk] at hx
    revert hx
    split
    · intro hx
      rcases ih kept seen x hx with h | h
      · exact Or.inl h
      · exact Or.inr (List.mem_cons_of_mem _ h)
    · intro hx
      rcases ih (kept ++ [p]) (seen ++ [p.content]) x hx with h | h
      · rcases List.mem_append.mp h with h1 | h1
        · exact Or.inl h1
        · simp only [List.mem_singleton] at h1
          exact Or.inr (h1 ▸ List.mem_cons_self p ps)
      · exact Or.inr (List.mem_cons_of_mem _ h)

lemma mem_deduplicatePassages {sim : String → String → ℚ} {thr : ℚ}
    {l : List Passage} {x : Passage}
    (h : x ∈ deduplicatePassages sim thr l) : x ∈ l := by
  match l with
  | [] => simp [deduplicatePassages] at h
  | p :: ps =>
    have := dedupWalk_mem sim thr (sortByScoreDesc (p :: ps)) [] [] x h
    simpa [mem_sortByScoreDesc] using this

lemma mem_filterByRelevance {thr : ℚ} {l : List Passage} {x : Passage}
    (h : x ∈ filterByRelevance thr l) : thr ≤ x.score ∧ x ∈ l := by
  rw [filterByRelevance, List.mem_filter] at h
  exact ⟨of_decide_eq_true h.2, h.1⟩

lemma retrieve_length_le (db : String → Nat → List (RetrieverDoc × ℚ))
    (simThr dedupThr : ℚ) (selfTopK : Nat) (query : String)
    (topK : Option Nat) (applyDedup : Bool) :
    (retrieve db simThr dedupThr selfTopK query topK applyDedup).length ≤
      effectiveTopK selfTopK topK := by
  simp only [retrieve]
  rcases hdb : db query (effectiveTopK selfTopK topK * 2) with _ | ⟨r, rs⟩
  · simp
  · simp only [List.length_take]
    exact min_le_left _ _

lemma retrieve_scores (db : String → Nat → List (RetrieverDoc × ℚ))
    (simThr dedupThr : ℚ) (selfTopK : Nat) (query : String)
    (topK : Option Nat) (applyDedup : Bool) :
    ∀ p ∈ retrieve db simThr dedupThr selfTopK query topK applyDedup,
      simThr ≤ p.score := by
  intro p hp
  simp only [retrieve] at hp
  rcases hdb : db query (effectiveTopK selfTopK topK * 2) with _ | ⟨r, rs⟩
  · rw [hdb] at hp
    simp at hp
  · rw [hdb] at hp
    simp only [] at hp
    have h1 := List.take_subset _ _ hp
    by_cases hd : applyDedup
    · rw [if_pos hd] at h1
      exact (mem_filterByRelevance (mem_deduplicatePassages h1)).1
    · rw [if_neg hd] at h1
      exact (mem_filterByRelevance h1).1

/-- C1 (amended): for every query, retrieve returns at most topK passages
whenever the supplied topK is positive (and at most the configured
default when topK is omitted), and every returned passage has score at
least the similarity threshold, because the relevance filter runs before
truncation.  The case topK = 0 is excluded: Python's top_k or self.top_k
treats 0 as absent. -/
theorem retrieve_topk_and_threshold
    (db : String → Nat → List (RetrieverDoc × ℚ)) (simThr dedupThr : ℚ)
    (selfTopK : Nat) (query : String) (topK : Option Nat) (applyDedup : Bool) :
    (∀ k, topK = some k → 0 < k →
      (retrieve db simThr dedupThr selfTopK query topK applyDedup).length ≤ k) ∧
    (topK = none →
      (retrieve db simThr dedupThr selfTopK query topK applyDedup).length ≤ selfTopK) ∧
    (∀ p ∈ retrieve db simThr dedupThr selfTopK query topK applyDedup,
      simThr ≤ p.score) := by
  refine ⟨?_, ?_, retrieve_scores db simThr dedupThr selfTopK query topK applyDedup⟩
  · intro k hk hkpos
    subst hk
    have h := retrieve_length_le db simThr dedupThr selfTopK query (some k) applyDedup
    rcases k with _ | n
    · exact absurd hkpos (by simp)
    · simpa [effectiveTopK] using h
  · intro hk
    subst hk
    simpa [effectiveTopK] using
      retrieve_length_le db simThr dedupThr selfTopK query none applyDedup

lemma retrieve_exDb_topk_zero :
    retrieve exDb (1/2) (85/100) 5 "how to treat a cut" (some 0) true =
      [exDocPassage] := by
  norm_num [retrieve, effectiveTopK, exDb, exDoc, exDocPassage, filterByRelevance,
    deduplicatePassages, dedupWalk, sortByScoreDesc, insertScoreDesc, List.filter]

/-- C1 is false as stated: with topK = 0 the code falls back to the
default top_k (Python or treats 0 as falsy) and returns one passage,
which is more than topK. -/
theorem retrieve_topk_zero_counterexample :
    ¬ ((retrieve exDb (1/2) (85/100) 5 "how to treat a cut" (some 0) true).length ≤ 0) := by
  rw [retrieve_exDb_topk_zero]
  simp

/-- Witness for retrieve_topk_and_threshold at the concrete store exDb
with topK = 1. -/
theorem retrieve_topk_and_threshold_witness :
    ((retrieve exDb (1/2) (85/100) 5 "how to treat a cut" (some 1) true).length ≤ 1) ∧
    (∀ p ∈ retrieve exDb (1/2) (85/100) 5 "how to treat a cut" (some 1) true,
      (1/2 : ℚ) ≤ p.score) :=
  ⟨(retrieve_topk_and_threshold exDb (1/2) (85/100) 5 "how to treat a cut"
      (some 1) true).1 1 rfl (by decide),
   (retrieve_topk_and_threshold exDb (1/2) (85/100) 5 "how to treat a cut"
      (some 1) true).2.2⟩

/-! ## Deduplication lemmas -/

lemma pairwise_insertScoreDesc {p : Passage} {l : List Passage}
    (h : List.Pairwise (fun a b => b.score ≤ a.score) l) :
    List.Pairwise (fun a b => b.score ≤ a.score) (insertScoreDesc p l) := by
  induction l with
  | nil => simp [insertScoreDesc]
  | cons q qs ih =>
    have h' := List.pairwise_cons.mp h
    simp only [insertScoreDesc]
    split
    · rename_i hlt
      refine List.pairwise_cons.mpr ⟨fun x hx => ?_, ih h'.2⟩
      rcases mem_insertScoreDesc.mp hx with rfl | hx1
      · exact le_of_lt hlt
      · exact h'.1 x hx1
    · rename_i hnlt
      refine List.pairwise_cons.mpr ⟨fun x hx => ?_, h⟩
      rcases List.mem_cons.mp hx with rfl | hx1
      · exact not_lt.mp hnlt
      · exact le_trans (h'.1 x hx1) (not_lt.mp hnlt)

lemma sortByScoreDesc_pairwise (l : List Passage) :
    List.Pairwise (fun a b => b.score ≤ a.score) (sortByScoreDesc l) := by
  induction l with
  | nil => simp [sortByScoreDesc]
  | cons p ps ih => exact pairwise_insertScoreDesc ih

lemma dedupWalk_pairwise (sim : String → String → ℚ) (thr : ℚ) :
    ∀ (l kept : List Passage) (seen : List String),
      seen = kept.map Passage.content →
      List.Pairwise (fun a b => sim b.content a.content < thr) kept →
      List.Pairwise (fun a b => sim b.content a.content < thr)
        (dedupWalk sim thr l kept seen) := by
  intro l
  induction l with
  | nil =>
    intro kept seen _ hk
    simpa [dedupWalk] using hk
  | cons p ps ih =>
    intro kept seen hseen hk
    simp only [dedupWalk]
    split
    · exact ih kept seen hseen hk
    · rename_i hany
      apply ih
      · simp [hseen]
      · rw [List.pairwise_append]
        refine ⟨hk, List.pairwise_singleton _ _, fun a ha b hb => ?_⟩
        simp only [List.mem_singleton] at hb
        subst hb
        by_contra hge
        have hmem : a.content ∈ seen := by
          rw [hseen]; exact List.mem_map_of_mem _ ha
        exact hany (List.any_eq_true.mpr
          ⟨a.content, hmem, by simpa using not_lt.mp hge⟩)

lemma dedupWalk_dominates (sim : String → String → ℚ) (thr : ℚ) :
    ∀ (l kept : List Passage) (seen : List String),
      seen = kept.map Passage.content →
      (∀ a ∈ kept, ∀ b ∈ l, b.score ≤ a.score) →
      List.Pairwise (fun a b => b.score ≤ a.score) l →
      ∀ p ∈ l, p ∉ dedupWalk sim thr l kept seen →
        ∃ q ∈ dedupWalk sim thr l kept seen,
          thr ≤ sim p.content q.content ∧ p.score ≤ q.score := by
  intro l
  induction l with
  | nil =>
    intro kept seen _ _ _ p hp
    simp at hp
  | cons x xs ih =>
    intro kept seen hseen hdom hsort p hp hpnot
    have hsort' := List.pairwise_cons.mp hsort
    simp only [dedupWalk] at hpnot ⊢
    by_cases hany : (seen.any fun s => decide (thr ≤ sim x.content s)) = true
    · rw [if_pos hany] at hpnot ⊢
      rcases List.mem_cons.mp hp with rfl | hps
      · rcases List.any_eq_true.mp hany with ⟨s, hsmem, hs⟩
        rw [hseen] at hsmem
        rcases List.mem_map.mp hsmem with ⟨q, hqkept, rfl⟩
        obtain ⟨extra, hx⟩ := dedupWalk_eq_append sim thr xs kept seen
        refine ⟨q, by rw [hx]; exact List.mem_append_left _ hqkept, ?_, ?_⟩
        · simpa using hs
        · exact hdom q hqkept p (List.mem_cons_self p xs)
      · exact ih kept seen hseen
          (fun a ha b hb => hdom a ha b (List.mem_cons_of_mem _ hb))
          hsort'.2 p hps hpnot
    · rw [if_neg hany] at hpnot ⊢
      have hseen' : seen ++ [x.content] = (kept ++ [x]).map Passage.content := by
        simp [hseen]
      have hdom' : ∀ a ∈ kept ++ [x], ∀ b ∈ xs, b.score ≤ a.score := by
        intro a ha b hb
        rcases List.mem_append.mp ha with ha1 | ha1
        · exact hdom a ha1 b (List.mem_cons_of_mem _ hb)
        · simp only [List.mem_singleton] at ha1
          subst ha1
          exact hsort'.1 b hb
      rcases List.mem_cons.mp hp with rfl | hps
      · obtain ⟨extra, hx⟩ :=
          dedupWalk_eq_append sim thr xs (kept ++ [p]) (seen ++ [p.content])
        exact absurd (by
          rw [hx]
          exact List.mem_append_left _ (List.mem_append_right _ (List.mem_singleton_self p)))
          hpnot
      · exact ih (kept ++ [x]) (seen ++ [x.content]) hseen' hdom'
          hsort'.2 p hps hpnot

/-- C2 (amended): after deduplication no kept passage has similarity at
least the threshold to any passage kept before it (similarity computed as
the code does, current against already-kept), and every passage that was
dropped is a near-duplicate of some retained passage with a score at
least as high.  It is NOT always the higher-scored member of a
near-duplicate pair that survives: similarity is not transitive, so a
passage can be dropped against a top passage while a lower-scored
near-duplicate of the dropped one survives. -/
theorem dedup_pairwise_and_dominance (thr : ℚ) (l : List Passage) :
    List.Pairwise (fun a b => textSimilarity b.content a.content < thr)
      (deduplicatePassages textSimilarity thr l) ∧
    (∀ p ∈ l, p ∉ deduplicatePassages textSimilarity thr l →
      ∃ q ∈ deduplicatePassages textSimilarity thr l,
        thr ≤ textSimilarity p.content q.content ∧ p.score ≤ q.score) := by
  rcases l with _ | ⟨x, xs⟩
  · simp [deduplicatePassages]
  · simp only [deduplicatePassages]
    constructor
    · exact dedupWalk_pairwise textSimilarity thr (sortByScoreDesc (x :: xs)) [] []
        (by simp) (by simp)
    · intro p hp hpnot
      exact dedupWalk_dominates textSimilarity thr (sortByScoreDesc (x :: xs)) [] []
        (by simp) (by simp) (sortByScoreDesc_pairwise _)
        p (mem_sortByScoreDesc.mpr hp) hpnot

lemma textSimilarity_yx : textSimilarity exY exX = 9/10 := by
  have h : matchTotal exY.toList exX.toList = 9 := by decide
  have hy : exY.toList.length = 10 := by decide
  have hx : exX.toList.length = 10 := by decide
  simp only [textSimilarity, seqMatcherRatio, h, hy, hx]
  norm_num

lemma textSimilarity_zx : textSimilarity exZ exX = 4/5 := by
  have h : matchTotal exZ.toList exX.toList = 8 := by decide
  have hz : exZ.toList.length = 10 := by decide
  have hx : exX.toList.length = 10 := by decide
  simp only [textSimilarity, seqMatcherRatio, h, hz, hx]
  norm_num

lemma textSimilarity_yz : textSimilarity exY exZ = 9/10 := by
  have h : matchTotal exY.toList exZ.toList = 9 := by decide
  have hy : exY.toList.length = 10 := by decide
  have hz : exZ.toList.length = 10 := by decide
  simp only [textSimilarity, seqMatcherRatio, h, hy, hz]
  norm_num

lemma dedup_trio_eval :
    deduplicatePassages textSimilarity (85/100) [exP1, exP2, exP3] = [exP1, exP3] := by
  norm_num [deduplicatePassages, dedupWalk, sortByScoreDesc, insertScoreDesc,
    exP1, exP2, exP3, textSimilarity_yx, textSimilarity_zx, textSimilarity_yz]

lemma exP2_ne_exP1 : exP2 ≠ exP1 := by
  simp only [exP1, exP2, ne_eq, Passage.mk.injEq, not_and]
  intro h
  exact absurd h (by decide)

lemma exP2_ne_exP3 : exP2 ≠ exP3 := by
  simp only [exP2, exP3, ne_eq, Passage.mk.injEq, not_and]
  intro h
  exact absurd h (by decide)

/-- C2 is false as stated: exP2 and exP3 are near-duplicates
(ratio 9/10 at threshold 85/100) and exP2 has the higher score, yet
deduplication retains exP3 and drops exP2 (exP2 is dropped against the
even higher-scored exP1, to which exP3 is not similar enough). -/
theorem dedup_higher_scored_counterexample :
    exP3.score < exP2.score ∧
    (85/100 : ℚ) ≤ textSimilarity exP2.content exP3.content ∧
    exP2 ∉ deduplicatePassages textSimilarity (85/100) [exP1, exP2, exP3] ∧
    exP3 ∈ deduplicatePassages textSimilarity (85/100) [exP1, exP2, exP3] := by
  refine ⟨by norm_num [exP2, exP3], ?_, ?_, ?_⟩
  · have : textSimilarity exP2.content exP3.content = 9/10 := textSimilarity_yz
    rw [this]
    norm_num
  · rw [dedup_trio_eval]
    simp [exP2_ne_exP1, exP2_ne_exP3]
  · rw [dedup_trio_eval]
    simp

/-- Witness for dedup_pairwise_and_dominance: the dropped passage exP2
has a retained near-duplicate of at least its score (namely exP1). -/
theorem dedup_pairwise_and_dominance_witness :
    ∃ q ∈ deduplicatePassages textSimilarity (85/100) [exP1, exP2, exP3],
      (85/100 : ℚ) ≤ textSimilarity exP2.content q.content ∧ exP2.score ≤ q.score :=
  (dedup_pairwise_and_dominance (85/100) [exP1, exP2, exP3]).2 exP2
    (by simp)
    (by rw [dedup_trio_eval]; simp [exP2_ne_exP1, exP2_ne_exP3])

/-! ## ContextBuilder lemmas -/

lemma buildLoop_tokens_le (tc : String → Nat) (maxTokens : Nat)
    (im : Bool) (sep : String) :
    ∀ (l : List Passage) (acc : BuildAcc), acc.tokens ≤ maxTokens →
      (buildLoop tc maxTokens im sep l acc).tokens ≤ maxTokens := by
  intro l
  induction l with
  | nil =>
    intro acc h
    simpa [buildLoop] using h
  | cons p ps ih =>
    intro acc h
    simp only [buildLoop]
    rcases hlook : List.lookup (sourceOf p) acc.citMap with _ | v <;>
        simp only [hlook] <;> split <;> split
    all_goals first
      | exact h
      | exact ih _ (not_lt.mp (by assumption))

lemma buildLoop_walked_take (tc : String → Nat) (maxTokens : Nat)
    (im : Bool) (sep : String) :
    ∀ (l : List Passage) (acc : BuildAcc),
      ∃ n m, (buildLoop tc maxTokens im sep l acc).walked = acc.walked ++ l.take n ∧
        (buildLoop tc maxTokens im sep l acc).included = acc.included + m ∧
        (n = l.length ∨ n = m + 1) := by
  intro l
  induction l with
  | nil =>
    intro acc
    exact ⟨0, 0, by simp [buildLoop], by simp [buildLoop], Or.inl rfl⟩
  | cons p ps ih =>
    intro acc
    simp only [buildLoop]
    rcases hlook : List.lookup (sourceOf p) acc.citMap with _ | v <;>
        simp only [hlook] <;> split <;> split
    all_goals first
      | (obtain ⟨n, m, h1, h2, h3⟩ := ih _
         refine ⟨n + 1, m + 1, ?_, ?_, ?_⟩
         · rw [h1]
           show (acc.walked ++ [p]) ++ List.take n ps = acc.walked ++ List.take (n + 1) (p :: ps)
           simp [List.take_succ_cons]
         · rw [h2]
           show acc.included + 1 + m = acc.included + (m + 1)
           omega
         · rcases h3 with h3 | h3
           · exact Or.inl (by simp [h3])
           · exact Or.inr (by omega))
      | exact ⟨1, 0, by simp, by simp, Or.inr rfl⟩

lemma buildLoop_parts_length (tc : String → Nat) (maxTokens : Nat)
    (im : Bool) (sep : String) :
    ∀ (l : List Passage) (acc : BuildAcc),
      acc.included = acc.parts.length →
      (buildLoop tc maxTokens im sep l acc).included =
        (buildLoop tc maxTokens im sep l acc).parts.length := by
  intro l
  induction l with
  | nil =>
    intro acc h
    simpa [buildLoop] using h
  | cons p ps ih =>
    intro acc h
    simp only [buildLoop]
    rcases hlook : List.lookup (sourceOf p) acc.citMap with _ | v <;>
        simp only [hlook] <;> split <;> split
    all_goals first
      | exact h
      | exact ih _ (by simp [h])

/-- C3: build_context never exceeds the token budget: total_tokens (the
running sum of per-passage token counts, trailing separators included) is
at most max_context_tokens, and the loop walks a prefix of the passage
list, stopping entirely at the first passage that does not fit (walked is
either the whole list or exactly the included passages plus the single
passage that triggered the break — no skip-and-continue). -/
theorem buildContext_token_budget (tc : String → Nat) (maxTokens : Nat)
    (passages : List Passage) (includeMetadata : Bool) (sep : String) :
    (buildContext tc maxTokens passages includeMetadata sep).total_tokens.getD 0 ≤
      maxTokens ∧
    (∃ n m,
      (buildLoop tc maxTokens includeMetadata sep passages initAcc).walked =
        passages.take n ∧
      (buildLoop tc maxTokens includeMetadata sep passages initAcc).included = m ∧
      (n = passages.length ∨ n = m + 1)) ∧
    (buildLoop tc maxTokens includeMetadata sep passages initAcc).included =
      (buildLoop tc maxTokens includeMetadata sep passages initAcc).parts.length := by
  refine ⟨?_, ?_, buildLoop_parts_length tc maxTokens includeMetadata sep passages initAcc rfl⟩
  · rcases passages with _ | ⟨p, ps⟩
    · simp [buildContext]
    · simp only [buildContext]
      exact buildLoop_tokens_le tc maxTokens includeMetadata sep (p :: ps) initAcc
        (by simp [initAcc])
  · obtain ⟨n, m, h1, h2, h3⟩ :=
      buildLoop_walked_take tc maxTokens includeMetadata sep passages initAcc
    exact ⟨n, m, by simpa [initAcc] using h1, by simpa [initAcc] using h2, h3⟩

/-- C4 (amended): build_context on the empty passage list returns the
sentinel context text and empty citations, but the returned dict has no
count keys at all: num_passages, num_sources and total_tokens are absent
(consumers that read them with dict.get(key, 0) observe zero). -/
theorem buildContext_empty (tc : String → Nat) (maxTokens : Nat)
    (im : Bool) (sep : String) :
    buildContext tc maxTokens [] im sep =
      { context := "No relevant information found in the knowledge base."
        citations := ""
        num_passages := none
        num_sources := none
        total_tokens := none } := rfl

/-- C4 is false as stated: on the empty passage list none of the three
counts equals zero — the keys are simply absent from the returned dict
(modelled as none, and none is not some 0). -/
theorem buildContext_empty_counterexample :
    (buildContext (fun _ => 0) 2000 [] true "\n\n---\n\n").num_passages ≠ some 0 ∧
    (buildContext (fun _ => 0) 2000 [] true "\n\n---\n\n").num_sources ≠ some 0 ∧
    (buildContext (fun _ => 0) 2000 [] true "\n\n---\n\n").total_tokens ≠ some 0 := by
  refine ⟨?_, ?_, ?_⟩ <;> simp [buildContext]

/-- C9: when the token budget stops inclusion at a passage, that
passage's source has already been given a citation number (assignment
happens before the budget check), so num_sources counts, and the
citations block lists, source B even though the returned context consists
of the single included passage from source A. -/
theorem buildContext_truncation_citation_leak :
    (buildContext String.length 30 [exShort, exLong] true "\n\n---\n\n").num_passages =
      some 1 ∧
    (buildContext String.length 30 [exShort, exLong] true "\n\n---\n\n").num_sources =
      some 2 ∧
    (buildContext String.length 30 [exShort, exLong] true "\n\n---\n\n").context =
      "[Source 1] press here" ∧
    (buildContext String.length 30 [exShort, exLong] true "\n\n---\n\n").citations =
      "1. A\n2. B" ∧
    sourceOf exShort = "A" ∧ sourceOf exLong = "B" := by
  refine ⟨?_, ?_, ?_, ?_, rfl, rfl⟩ <;> rfl

/-! ## Citation numbering (C5) -/

lemma lookup_eq_none_iff (s : String) :
    ∀ l : List (String × Nat), l.lookup s = none ↔ s ∉ l.map Prod.fst := by
  intro l
  induction l with
  | nil => simp
  | cons e es ih =>
    rcases e with ⟨k, v⟩
    by_cases h : s = k
    · subst h
      simp [List.lookup]
    · simp only [List.lookup, beq_false_of_ne h, List.map_cons, List.mem_cons, ih]
      simp [h]

lemma firstSeen_append_single (l : List String) (s : String) :
    firstSeen (l ++ [s]) =
      if s ∈ firstSeen l then firstSeen l else firstSeen l ++ [s] := by
  rw [firstSeen, firstSeen, List.foldl_append]
  rfl

lemma citMap_step_found {acc : BuildAcc} {p : Passage} {v : Nat}
    (hlook : List.lookup (sourceOf p) acc.citMap = some v)
    (h3 : acc.citMap.map Prod.fst = firstSeen (acc.walked.map sourceOf)) :
    acc.citMap.map Prod.fst = firstSeen ((acc.walked ++ [p]).map sourceOf) := by
  have hmem : sourceOf p ∈ acc.citMap.map Prod.fst := by
    by_contra hc
    rw [← lookup_eq_none_iff (sourceOf p) acc.citMap] at hc
    rw [hc] at hlook
    exact Option.noConfusion hlook
  rw [h3] at hmem
  rw [List.map_append, List.map_singleton, firstSeen_append_single, if_pos hmem]
  exact h3

lemma citMap_step_new {acc : BuildAcc} {p : Passage}
    (hlook : List.lookup (sourceOf p) acc.citMap = none)
    (h1 : acc.counter = acc.citMap.length + 1)
    (h2 : acc.citMap.map Prod.snd = List.range' 1 acc.citMap.length)
    (h3 : acc.citMap.map Prod.fst = firstSeen (acc.walked.map sourceOf)) :
    acc.counter + 1 = (acc.citMap ++ [(sourceOf p, acc.counter)]).length + 1 ∧
    (acc.citMap ++ [(sourceOf p, acc.counter)]).map Prod.snd =
      List.range' 1 (acc.citMap ++ [(sourceOf p, acc.counter)]).length ∧
    (acc.citMap ++ [(sourceOf p, acc.counter)]).map Prod.fst =
      firstSeen ((acc.walked ++ [p]).map sourceOf) := by
  have hnotmem : sourceOf p ∉ acc.citMap.map Prod.fst :=
    (lookup_eq_none_iff (sourceOf p) acc.citMap).mp hlook
  refine ⟨by simp [h1], ?_, ?_⟩
  · rw [List.map_append, List.map_singleton, h2, List.length_append,
      List.length_singleton, List.range'_concat]
    simp [h1, Nat.add_comm]
  · rw [h3] at hnotmem
    rw [List.map_append, List.map_singleton, List.map_append, List.map_singleton,
      firstSeen_append_single, if_neg hnotmem, h3]

lemma buildLoop_citMap_spec (tc : String → Nat) (maxTokens : Nat)
    (im : Bool) (sep : String) :
    ∀ (l : List Passage) (acc : BuildAcc),
      acc.counter = acc.citMap.length + 1 →
      acc.citMap.map Prod.snd = List.range' 1 acc.citMap.length →
      acc.citMap.map Prod.fst = firstSeen (acc.walked.map sourceOf) →
      (buildLoop tc maxTokens im sep l acc).counter =
          (buildLoop tc maxTokens im sep l acc).citMap.length + 1 ∧
        (buildLoop tc maxTokens im sep l acc).citMap.map Prod.snd =
          List.range' 1 (buildLoop tc maxTokens im sep l acc).citMap.length ∧
        (buildLoop tc maxTokens im sep l acc).citMap.map Prod.fst =
          firstSeen ((buildLoop tc maxTokens im sep l acc).walked.map sourceOf) := by
  intro l
  induction l with
  | nil =>
    intro acc h1 h2 h3
    simpa [buildLoop] using ⟨h1, h2, h3⟩
  | cons p ps ih =>
    intro acc h1 h2 h3
    simp only [buildLoop]
    rcases hlook : List.lookup (sourceOf p) acc.citMap with _ | v <;>
        simp only [hlook] <;> split <;> split
    all_goals first
      | exact ih _ (citMap_step_new hlook h1 h2 h3).1 (citMap_step_new hlook h1 h2 h3).2.1
          (citMap_step_new hlook h1 h2 h3).2.2
      | exact ⟨(citMap_step_new hlook h1 h2 h3).1, (citMap_step_new hlook h1 h2 h3).2.1,
          (citMap_step_new hlook h1 h2 h3).2.2⟩
      | exact ih _ h1 h2 (citMap_step_found hlook h3)
      | exact ⟨h1, h2, citMap_step_found hlook h3⟩

lemma insertByNum_of_le {x : String × Nat} {l : List (String × Nat)}
    (h : ∀ y ∈ l, x.2 ≤ y.2) : insertByNum x l = x :: l := by
  cases l with
  | nil => rfl
  | cons y ys =>
    simp only [insertByNum]
    rw [if_neg (not_lt.mpr (h y (List.mem_cons_self y ys)))]

lemma sortByNum_eq_self {l : List (String × Nat)}
    (h : List.Pairwise (fun a b => a.2 ≤ b.2) l) : sortByNum l = l := by
  induction l with
  | nil => rfl
  | cons x xs ih =>
    have h' := List.pairwise_cons.mp h
    simp only [sortByNum]
    rw [ih h'.2, insertByNum_of_le h'.1]

lemma pairwise_of_snd_range' {l : List (String × Nat)}
    (h : l.map Prod.snd = List.range' 1 l.length) :
    List.Pairwise (fun a b => a.2 ≤ b.2) l := by
  have hp : List.Pairwise (· < ·) (l.map Prod.snd) := by
    rw [h]
    exact List.pairwise_lt_range' 1 l.length
  rw [List.pairwise_map] at hp
  exact hp.imp (fun hab => le_of_lt hab)

/-- C5: within one build_context call on a non-empty list, the citation
numbers stored in the citation map are exactly 1..num_sources in map
order, the map's keys are the sources of the walked passages in
first-seen order (so a source seen again keeps its number and no gap ever
forms), and the citations block is the citation lines in ascending
citation-number order. -/
theorem buildContext_citation_numbering (tc : String → Nat) (maxTokens : Nat)
    (passages : List Passage) (im : Bool) (sep : String)
    (hne : passages ≠ []) :
    (buildContext tc maxTokens passages im sep).num_sources =
      some (buildLoop tc maxTokens im sep passages initAcc).citMap.length ∧
    (buildLoop tc maxTokens im sep passages initAcc).citMap.map Prod.snd =
      List.range' 1 (buildLoop tc maxTokens im sep passages initAcc).citMap.length ∧
    (buildLoop tc maxTokens im sep passages initAcc).citMap.map Prod.fst =
      firstSeen ((buildLoop tc maxTokens im sep passages initAcc).walked.map sourceOf) ∧
    (buildContext tc maxTokens passages im sep).citations =
      String.intercalate "\n"
        ((buildLoop tc maxTokens im sep passages initAcc).citMap.map
          (citationLine passages)) := by
  obtain ⟨h1, h2, h3⟩ := buildLoop_citMap_spec tc maxTokens im sep passages initAcc
    (by simp [initAcc]) (by simp [initAcc]) (by simp [initAcc, firstSeen])
  rcases passages with _ | ⟨p, ps⟩
  · exact absurd rfl hne
  · refine ⟨rfl, h2, h3, ?_⟩
    show buildCitationsFromMap
      (buildLoop tc maxTokens im sep (p :: ps) initAcc).citMap (p :: ps) = _
    rw [buildCitationsFromMap, sortByNum_eq_self (pairwise_of_snd_range' h2)]

/-- Witness for buildContext_citation_numbering at a concrete three
passage list with a repeated source. -/
theorem buildContext_citation_numbering_witness :
    (buildContext (fun _ => 0) 2000 [exPA, exPB, exPA2] true "\n\n---\n\n").num_sources =
      some (buildLoop (fun _ => 0) 2000 true "\n\n---\n\n" [exPA, exPB, exPA2] initAcc).citMap.length ∧
    (buildLoop (fun _ => 0) 2000 true "\n\n---\n\n" [exPA, exPB, exPA2] initAcc).citMap.map Prod.snd =
      List.range' 1 (buildLoop (fun _ => 0) 2000 true "\n\n---\n\n" [exPA, exPB, exPA2] initAcc).citMap.length ∧
    (buildLoop (fun _ => 0) 2000 true "\n\n---\n\n" [exPA, exPB, exPA2] initAcc).citMap.map Prod.fst =
      firstSeen ((buildLoop (fun _ => 0) 2000 true "\n\n---\n\n" [exPA, exPB, exPA2] initAcc).walked.map sourceOf) ∧
    (buildContext (fun _ => 0) 2000 [exPA, exPB, exPA2] true "\n\n---\n\n").citations =
      String.intercalate "\n"
        ((buildLoop (fun _ => 0) 2000 true "\n\n---\n\n" [exPA, exPB, exPA2] initAcc).citMap.map
          (citationLine [exPA, exPB, exPA2])) :=
  buildContext_citation_numbering (fun _ => 0) 2000 [exPA, exPB, exPA2] true "\n\n---\n\n"
    (by simp)

/-! ## Conversation state store (C6, C7) -/

/-- C6: add_message on a conversation id absent from the store fails with
the not-found error, leaves the stored conversations completely unchanged
and does not flush, whereas get_state on an absent id appends exactly one
new conversation with an empty message list and the supplied title
(or "Untitled") and flushes the store. -/
theorem addMessage_absent_getState_creates (s : Store)
    (cid role content uuid ts : String) (title : Option String)
    (h : s.lookup cid = none) :
    addMessage s cid role content uuid ts =
      (s, false, Except.error ("Conversation " ++ cid ++ " not found")) ∧
    getState s cid title =
      (s ++ [(cid, { conversation_id := cid, title := title.getD "Untitled",
                     messages := [], summary := "" })],
       { messages := [], title := title.getD "Untitled", summary := some "" },
       true) := by
  constructor
  · simp [addMessage, h]
  · simp [getState, h]

/-- Witness for addMessage_absent_getState_creates on the empty store. -/
theorem addMessage_absent_getState_creates_witness :
    addMessage [] "c1" "user" "hi" "u1" "t1" =
      ([], false, Except.error "Conversation c1 not found") ∧
    getState [] "c1" (some "First aid chat") =
      ([("c1", { conversation_id := "c1", title := "First aid chat",
                 messages := [], summary := "" })],
       { messages := [], title := "First aid chat", summary := some "" },
       true) :=
  addMessage_absent_getState_creates [] "c1" "user" "hi" "u1" "t1"
    (some "First aid chat") rfl

/-- C7 fails on the code: update_state tests only for a missing
message_id, so a message that has an id but no timestamp is stored
unchanged, and the following get_state returns it still without a
timestamp (the code's own comment says it ensures ids AND timestamps). -/
theorem updateState_keeps_missing_timestamp :
    (getState (updateState [] "c1"
        { messages := [exLegacyMsg], title := "T", summary := none }
        (fun _ => ("u", "t"))) "c1" none).2.1.messages = [exLegacyMsg] ∧
    ∃ m ∈ (getState (updateState [] "c1"
        { messages := [exLegacyMsg], title := "T", summary := none }
        (fun _ => ("u", "t"))) "c1" none).2.1.messages, m.timestamp = none := by
  refine ⟨by rfl, exLegacyMsg, ?_, rfl⟩
  rw [show (getState (updateState [] "c1"
      { messages := [exLegacyMsg], title := "T", summary := none }
      (fun _ => ("u", "t"))) "c1" none).2.1.messages = [exLegacyMsg] from rfl]
  exact List.mem_singleton_self exLegacyMsg

/-! ## Router and verdict extraction (C8, C10) -/

/-- C8: the router dispatches to the RAG branch exactly when the verdict
string lowercases to "yes"; a missing verdict falls back to the default
"No" and routes to the casual branch; and when the router chooses the
casual branch the pipeline's outcome is independent of the retriever,
the token counter, the instructor prompt and the RAG template —
no_rag_chatter never invokes the retriever or the context builder. -/
theorem router_yes_iff_and_chatter_independent :
    (∀ s : String, router (some s) = Route.invokeRag ↔ pyLower s = "yes") ∧
    router none = Route.noRagChatter ∧
    (∀ verdict : Option String, router verdict = Route.noRagChatter →
      ∀ (r1 r2 : String → List Passage) (tc1 tc2 : String → Nat)
        (llm : List (String × String) → String)
        (ip1 ip2 : String) (rt1 rt2 : String → String → String → String)
        (cp : String) (mt1 mt2 mm : Nat) (s : Store) (cid uuid ts : String)
        (history : List MessageDict),
        dispatchAfterRouter r1 tc1 llm ip1 rt1 cp mt1 mm verdict s cid uuid ts history =
          dispatchAfterRouter r2 tc2 llm ip2 rt2 cp mt2 mm verdict s cid uuid ts history) := by
  refine ⟨?_, rfl, ?_⟩
  · intro s
    by_cases h : pyLower s = "yes" <;> simp [router, h]
  · intro verdict hv r1 r2 tc1 tc2 llm ip1 ip2 rt1 rt2 cp mt1 mt2 mm s cid uuid ts history
    simp only [dispatchAfterRouter, hv]

/-- Witness for router_yes_iff_and_chatter_independent: "YES" routes to
the RAG branch, and under verdict "No" two pipelines with entirely
different retrievers, token counters and RAG prompts produce the same
outcome. -/
theorem router_yes_iff_and_chatter_independent_witness :
    router (some "YES") = Route.invokeRag ∧
    dispatchAfterRouter (fun _ => []) (fun _ => 0) (fun _ => "ok") "ip1"
        (fun _ _ _ => "rp1") "chat" 100 20 (some "No")
        [("c1", exConv)] "c1" "u1" "t1" [] =
      dispatchAfterRouter (fun _ => [exPA]) String.length (fun _ => "ok") "ip2"
        (fun _ _ _ => "rp2") "chat" 2000 20 (some "No")
        [("c1", exConv)] "c1" "u1" "t1" [] :=
  ⟨(router_yes_iff_and_chatter_independent.1 "YES").mpr rfl,
   router_yes_iff_and_chatter_independent.2.2 (some "No") rfl
     (fun _ => []) (fun _ => [exPA]) (fun _ => 0) String.length (fun _ => "ok")
     "ip1" "ip2" (fun _ _ _ => "rp1") (fun _ _ _ => "rp2") "chat" 100 2000 20
     [("c1", exConv)] "c1" "u1" "t1" []⟩

/-- C10: the verdict extraction in rag_desider is partial at its public
interface: on an empty or whitespace-only classifier completion,
strip().split() yields the empty list and the [0] index raises
IndexError, so no verdict is produced and the router's fail-safe default
is never reached for that reply; a non-empty reply yields its first
whitespace-delimited token. -/
theorem ragDesiderVerdict_whitespace_raises :
    ragDesiderVerdict "" = Except.error "IndexError: list index out of range" ∧
    ragDesiderVerdict " \t\n " = Except.error "IndexError: list index out of range" ∧
    ragDesiderVerdict "Yes, apply a bandage" = Except.ok "Yes," := by
  refine ⟨rfl, rfl, rfl⟩

end HealthMate
